import Mathlib

/-!
Verification of the gavel auction backend's event-consistency core.

The Go source is embedded shallowly:
* UUIDs and absolute instants become `Nat` (instants compared with `≤`/`<`,
  matching `time.Time.After` which is a strict comparison).
* Money amounts (`int64` in Go) become `Int`; the operations involved
  (comparisons, additions of a handful of values) stay far below 2^63 in every
  concrete scenario considered, so no wrap-around modelling is needed for the
  claims at hand.
* The relational store becomes explicit record states (`BidStore`,
  `StatsStore`, the outbox list); a transaction is modelled by computing the
  candidate post-state and only installing it on the commit path, every error
  path returning the original state (the Go code's deferred `tx.Rollback`).
* Fallible collaborators (commit, broker publish) are modelled by explicit
  boolean parameters so that both outcomes can be reasoned about.
-/

namespace Gavel

/-- `OutboxStatus` from `pkg/events` (part_045 lines 16-23):
pending / processing / published / failed. -/
inductive OutboxStatus where
  | pending
  | processing
  | published
  | failed
deriving DecidableEq, Repr

/-- The `pb.BidPlaced` protobuf message (fields `bid_id`, `item_id`,
`user_id` as strings, `amount` as int64, `timestamp`). -/
structure WireBidPlaced where
  bidId : String
  itemId : String
  userId : String
  amount : Int
  timestamp : Nat
deriving DecidableEq, Repr

/-- An outbox payload as stored in `outbox_events.payload`. The Go code
stores `proto.Marshal` bytes; we model a byte string that either is a valid
encoding of a `BidPlaced` message or is malformed, so that
`proto.Unmarshal` (see `decodePayload`) can be modelled exactly as
"succeeds iff the bytes encode a message". -/
inductive Payload where
  | bidPlaced (m : WireBidPlaced)
  | malformed (bytes : List Nat)
deriving DecidableEq, Repr

/-- `events.OutboxEvent` from `pkg/events` (part_045 lines 27-34). -/
structure OutboxEvent where
  id : Nat
  eventType : String
  payload : Payload
  status : OutboxStatus
  createdAt : Nat
  processedAt : Option Nat
deriving DecidableEq, Repr

/-- `items.Item`, restricted to the fields `PlaceBid` and the claims read:
`ID`, `SellerID`, `StartPrice`, `CurrentHighestBid`, `EndAt`. The remaining
columns (title, description, images, category, timestamps, status) are
never read by the bidding path and are omitted. -/
structure Item where
  id : Nat
  sellerId : Nat
  startPrice : Int
  currentHighestBid : Int
  endAt : Nat
deriving DecidableEq, Repr

/-- `bids.Bid` (id, item_id, user_id, amount, created_at). -/
structure Bid where
  id : Nat
  itemId : Nat
  userId : Nat
  amount : Int
  createdAt : Nat
deriving DecidableEq, Repr

/-- `bids.PlaceBidCommand` (part_028 lines 17-21). -/
structure PlaceBidCommand where
  itemId : Nat
  userId : Nat
  amount : Int
deriving DecidableEq, Repr

/-- The closed set of errors `PlaceBid` can surface (part_028 lines 24-29
plus item lookup failure and commit failure). -/
inductive BidError where
  | itemNotFound
  | sellerCannotBid
  | invalidBidAmount
  | bidTooLow
  | auctionEnded
  | transactionFailed
deriving DecidableEq, Repr

/-- `validateBidAmount` (part_028 lines 32-40):
`bidAmount <= 0` → `ErrInvalidBidAmount`; `bidAmount <= currentHighest` →
`ErrBidTooLow`; otherwise nil. -/
def validateBidAmount (bidAmount currentHighest : Int) : Option BidError :=
  if bidAmount ≤ 0 then some BidError.invalidBidAmount
  else if bidAmount ≤ currentHighest then some BidError.bidTooLow
  else none

/-- `validateAuctionNotEnded` (part_028 lines 43-48): `time.Now().After(endAt)`
→ `ErrAuctionEnded`; the Go `After` is a strict comparison, so `now = endAt`
passes. -/
def validateAuctionNotEnded (endAt now : Nat) : Option BidError :=
  if endAt < now then some BidError.auctionEnded else none

/-- The bid service's portion of the relational store: the `items`, `bids`
and `outbox_events` tables. -/
structure BidStore where
  items : List Item
  bids : List Bid
  outbox : List OutboxEvent
deriving DecidableEq, Repr

/-- `SELECT ... FROM items WHERE id = $1` (item_repository, `getItemByID`):
first row with the given id, or none (`ErrNoRows` → "item not found"). -/
def findItem (items : List Item) (itemId : Nat) : Option Item :=
  items.find? (fun it => it.id == itemId)

/-- `UpdateHighestBid` (item_repository): `UPDATE items SET
current_highest_bid = $1 WHERE id = $2`. -/
def updateHighestBid (items : List Item) (itemId : Nat) (amount : Int) :
    List Item :=
  items.map (fun it =>
    if it.id = itemId then { it with currentHighestBid := amount } else it)

/-- Hex digit character for `uuidString` (lower-case, as `uuid.UUID.String`). -/
def hexChar (n : Nat) : Char :=
  if n < 10 then Char.ofNat (48 + n) else Char.ofNat (87 + n)

/-- Big-endian fixed-width hex rendering used by `uuidString`. -/
def toHexDigits : Nat → Nat → List Char
  | 0, _ => []
  | k + 1, n => toHexDigits k (n / 16) ++ [hexChar (n % 16)]

/-- Modelled from the google/uuid collaborator library: `uuid.UUID.String`
renders the 128-bit value in canonical 8-4-4-4-12 lower-case hex form. -/
def uuidString (n : Nat) : String :=
  let ds := toHexDigits 32 (n % 2 ^ 128)
  String.mk (ds.take 8 ++ '-' :: ((ds.drop 8).take 4 ++ '-' ::
    ((ds.drop 12).take 4 ++ '-' :: ((ds.drop 16).take 4 ++ '-' ::
      (ds.drop 20)))))

/-- The `pb.BidPlaced` event body built by `PlaceBid` step 3 (part_028
lines 125-131): stringified UUIDs, the bid amount, the bid's timestamp. -/
def mkBidPlacedMessage (bid : Bid) : WireBidPlaced :=
  { bidId := uuidString bid.id
    itemId := uuidString bid.itemId
    userId := uuidString bid.userId
    amount := bid.amount
    timestamp := bid.createdAt }

/-- `AuctionService.PlaceBid` (part_028 lines 75-159).

State-passing embedding of the transactional body: `now` stands for the
`time.Now()` readings, `newBidId` / `newEventId` for the two `uuid.New()`
calls, and `commitOk` for the outcome of `tx.Commit`. Every non-commit exit
returns the original store (the deferred `tx.Rollback`); the success exit
installs all three mutations at once. -/
def placeBid (store : BidStore) (cmd : PlaceBidCommand) (now : Nat)
    (newBidId newEventId : Nat) (commitOk : Bool) :
    Except BidError Bid × BidStore :=
  match findItem store.items cmd.itemId with
  | none => (Except.error BidError.itemNotFound, store)
  | some item =>
    if item.sellerId = cmd.userId then
      (Except.error BidError.sellerCannotBid, store)
    else
      match validateBidAmount cmd.amount item.currentHighestBid with
      | some e => (Except.error e, store)
      | none =>
        match validateAuctionNotEnded item.endAt now with
        | some e => (Except.error e, store)
        | none =>
          let bid : Bid :=
            { id := newBidId, itemId := cmd.itemId, userId := cmd.userId
              amount := cmd.amount, createdAt := now }
          let outboxEvent : OutboxEvent :=
            { id := newEventId, eventType := "bid.placed"
              payload := Payload.bidPlaced (mkBidPlacedMessage bid)
              status := OutboxStatus.pending, createdAt := now
              processedAt := none }
          if commitOk then
            (Except.ok bid,
             { items := updateHighestBid store.items cmd.itemId cmd.amount
               bids := store.bids ++ [bid]
               outbox := store.outbox ++ [outboxEvent] })
          else (Except.error BidError.transactionFailed, store)

/-! ### Outbox relay (pkg/events relay + bid-service outbox repository) -/

/-- The `created_at` ordering used by `GetPendingEvents`'s
`ORDER BY created_at ASC`. -/
def createdAtLe (a b : OutboxEvent) : Prop := a.createdAt ≤ b.createdAt

instance : DecidableRel createdAtLe := fun a b => Nat.decLe a.createdAt b.createdAt

instance : IsTotal OutboxEvent createdAtLe := ⟨fun a b => Nat.le_total a.createdAt b.createdAt⟩

instance : IsTrans OutboxEvent createdAtLe := ⟨fun _ _ _ => Nat.le_trans⟩

/-- `PostgresOutboxRepository.GetPendingEvents` (outbox_repository.go lines
46-78): `SELECT ... WHERE status = pending ORDER BY created_at ASC LIMIT n
FOR UPDATE SKIP LOCKED`. `locked` is the set of row ids currently locked by
other transactions; in PostgreSQL the lock-skipping happens below the LIMIT
node, so skipped rows do not count against the limit. -/
def getPendingEvents (outbox : List OutboxEvent) (locked : List Nat)
    (limit : Nat) : List OutboxEvent :=
  (List.insertionSort createdAtLe
    (outbox.filter (fun e =>
      decide (e.status = OutboxStatus.pending) && !(locked.contains e.id)))).take limit

/-- Errors surfaced by `OutboxRelay.processBatch`. -/
inductive RelayError where
  | publishFailed
  | eventNotFound
  | commitFailed
deriving DecidableEq, Repr

/-- `PostgresOutboxRepository.UpdateEventStatus` (outbox_repository.go lines
81-104): `UPDATE outbox_events SET status = $1, processed_at = $2 WHERE
id = $3`, with `processed_at` stamped `now` exactly when the new status is
Published or Failed, and an "event not found" error when no row matched. -/
def updateEventStatus (outbox : List OutboxEvent) (eventId : Nat)
    (status : OutboxStatus) (now : Nat) :
    Except RelayError (List OutboxEvent) :=
  if outbox.any (fun e => e.id == eventId) then
    Except.ok (outbox.map (fun e =>
      if e.id = eventId then
        { e with status := status
                 processedAt :=
                   if status = OutboxStatus.published ∨
                      status = OutboxStatus.failed then some now else none }
      else e))
  else Except.error RelayError.eventNotFound

/-- The per-event loop of `OutboxRelay.processBatch` (part_045 lines
123-138): publish to the broker, then mark Published; stop with an error at
the first failing publish or failing status update. Besides the resulting
transaction-local outbox it returns the trace of `UpdateEventStatus` calls
issued (id, status) and the ids actually handed to the broker: the former
are transactional, the latter are not. -/
def relayLoop (publishOk : OutboxEvent → Bool) (now : Nat) :
    List OutboxEvent → List OutboxEvent →
    Except RelayError (List OutboxEvent) × List (Nat × OutboxStatus) × List Nat
  | [], txOutbox => (Except.ok txOutbox, [], [])
  | e :: rest, txOutbox =>
    if publishOk e then
      match updateEventStatus txOutbox e.id OutboxStatus.published now with
      | Except.ok txOutbox' =>
        let r := relayLoop publishOk now rest txOutbox'
        (r.1, (e.id, OutboxStatus.published) :: r.2.1, e.id :: r.2.2)
      | Except.error err =>
        (Except.error err, [(e.id, OutboxStatus.published)], [e.id])
    else (Except.error RelayError.publishFailed, [], [])

instance (α β : Type) [DecidableEq α] [DecidableEq β] :
    DecidableEq (Except α β) := fun a b =>
  match a, b with
  | Except.ok x, Except.ok y =>
    if h : x = y then isTrue (by rw [h]) else isFalse (by simp [h])
  | Except.error x, Except.error y =>
    if h : x = y then isTrue (by rw [h]) else isFalse (by simp [h])
  | Except.ok _, Except.error _ => isFalse (by simp)
  | Except.error _, Except.ok _ => isFalse (by simp)

/-- The outcome of one `processBatch` call: the result value, the outbox
state after commit/rollback, the trace of status-update calls made inside
the transaction, and the ids published to the broker (which survive a
rollback — the broker is not transactional). -/
structure BatchResult where
  res : Except RelayError Unit
  outbox : List OutboxEvent
  writes : List (Nat × OutboxStatus)
  published : List Nat
deriving DecidableEq, Repr

/-- `OutboxRelay.processBatch` (part_045 lines 102-141): begin, claim
pending rows, publish + mark each, commit; every error path takes the
deferred rollback, leaving the stored outbox unchanged. `publishOk` gives
the broker's answer per event and `commitOk` the outcome of `tx.Commit`. -/
def processBatch (outbox : List OutboxEvent) (locked : List Nat)
    (batchSize : Nat) (publishOk : OutboxEvent → Bool) (commitOk : Bool)
    (now : Nat) : BatchResult :=
  let evs := getPendingEvents outbox locked batchSize
  if evs.isEmpty then
    { res := Except.ok (), outbox := outbox, writes := [], published := [] }
  else
    match relayLoop publishOk now evs outbox with
    | (Except.ok txOutbox, writes, published) =>
      if commitOk then
        { res := Except.ok (), outbox := txOutbox
          writes := writes, published := published }
      else
        { res := Except.error RelayError.commitFailed, outbox := outbox
          writes := writes, published := published }
    | (Except.error err, writes, published) =>
      { res := Except.error err, outbox := outbox
        writes := writes, published := published }

/-! ### User-stats consumer (user-stats-service) -/

/-- `userstats.UserStats`: the `user_stats` row. -/
structure UserStats where
  userId : Nat
  totalBidsPlaced : Int
  totalAmountBid : Int
  lastBidAt : Nat
  createdAt : Nat
  updatedAt : Nat
deriving DecidableEq, Repr

/-- `UserStatsRepository.IncrementUserStats` (part_041 lines 24-43):
`INSERT ... VALUES ($1, 1, $2, $3, NOW(), NOW()) ON CONFLICT (user_id) DO
UPDATE SET total_bids_placed = total_bids_placed + 1, total_amount_bid =
total_amount_bid + EXCLUDED.total_amount_bid, last_bid_at =
EXCLUDED.last_bid_at, updated_at = NOW()`. Note the conflict branch
overwrites `last_bid_at` with the incoming value unconditionally. -/
def incrementUserStats (stats : List UserStats) (userId : Nat) (amount : Int)
    (lastBidAt now : Nat) : List UserStats :=
  if stats.any (fun r => r.userId == userId) then
    stats.map (fun r =>
      if r.userId = userId then
        { r with totalBidsPlaced := r.totalBidsPlaced + 1
                 totalAmountBid := r.totalAmountBid + amount
                 lastBidAt := lastBidAt
                 updatedAt := now }
      else r)
  else stats ++ [{ userId := userId, totalBidsPlaced := 1
                   totalAmountBid := amount, lastBidAt := lastBidAt
                   createdAt := now, updatedAt := now }]

/-- The conflict update as the spec words it (`last_bid_at = max(existing,
incoming)`), for comparison with `incrementUserStats` which is translated
from the SQL. -/
def incrementUserStatsSpec (stats : List UserStats) (userId : Nat)
    (amount : Int) (lastBidAt now : Nat) : List UserStats :=
  if stats.any (fun r => r.userId == userId) then
    stats.map (fun r =>
      if r.userId = userId then
        { r with totalBidsPlaced := r.totalBidsPlaced + 1
                 totalAmountBid := r.totalAmountBid + amount
                 lastBidAt := max r.lastBidAt lastBidAt
                 updatedAt := now }
      else r)
  else stats ++ [{ userId := userId, totalBidsPlaced := 1
                   totalAmountBid := amount, lastBidAt := lastBidAt
                   createdAt := now, updatedAt := now }]

/-- The user-stats service's portion of the store: `user_stats` and
`processed_events`. -/
structure StatsStore where
  stats : List UserStats
  processed : List Nat
deriving DecidableEq, Repr

/-- `UserStatsRepository.IsEventProcessed` (part_041 lines 78-89):
`SELECT 1 FROM processed_events WHERE event_id = $1` — true iff a row
exists. -/
def isEventProcessed (s : StatsStore) (eventId : Nat) : Bool :=
  decide (eventId ∈ s.processed)

/-- `userstats.BidPlacedEvent` as built by the consumer (EventID := bid_id). -/
structure BidPlacedEvent where
  eventId : Nat
  userId : Nat
  amount : Int
  timestamp : Nat
deriving DecidableEq, Repr

/-- Errors surfaced by `Service.ProcessBidPlaced`. -/
inductive ConsumerError where
  | transactionFailed
deriving DecidableEq, Repr

/-- `Service.ProcessBidPlaced` (part_040 lines 237-274): begin, dedup gate
on `processed_events`, `IncrementUserStats`, `MarkEventProcessed`
(`INSERT INTO processed_events (event_id) VALUES ($1)`), commit. The
already-processed branch returns success before commit (read-only
transaction, deferred rollback); `commitOk` is the outcome of `tx.Commit`
on the mutating path, whose failure rolls both mutations back. -/
def processBidPlaced (s : StatsStore) (e : BidPlacedEvent) (now : Nat)
    (commitOk : Bool) : Except ConsumerError Unit × StatsStore :=
  if isEventProcessed s e.eventId then (Except.ok (), s)
  else if commitOk then
    (Except.ok (),
     { stats := incrementUserStats s.stats e.userId e.amount e.timestamp now
       processed := s.processed ++ [e.eventId] })
  else (Except.error ConsumerError.transactionFailed, s)

/-- Modelled from the google/protobuf collaborator: `proto.Unmarshal`
succeeds exactly on byte strings that encode a `BidPlaced` message (see
`Payload`). -/
def decodePayload : Payload → Option WireBidPlaced
  | Payload.bidPlaced m => some m
  | Payload.malformed _ => none

/-- Hex digit value, or none for a non-hex character (`parseUUID`). -/
def hexVal (c : Char) : Option Nat :=
  if '0' ≤ c ∧ c ≤ '9' then some (c.toNat - 48)
  else if 'a' ≤ c ∧ c ≤ 'f' then some (c.toNat - 87)
  else if 'A' ≤ c ∧ c ≤ 'F' then some (c.toNat - 55)
  else none

/-- Accumulating big-endian hex reading (`parseUUID`). -/
def hexToNat : List Char → Nat → Option Nat
  | [], acc => some acc
  | c :: rest, acc =>
    match hexVal c with
    | some v => hexToNat rest (acc * 16 + v)
    | none => none

/-- Split a character list at `'-'` (`parseUUID`). -/
def splitDash : List Char → List (List Char)
  | [] => [[]]
  | c :: rest =>
    if c = '-' then [] :: splitDash rest
    else
      match splitDash rest with
      | [] => [[c]]
      | g :: gs => (c :: g) :: gs

/-- Modelled from the google/uuid collaborator library: `uuid.Parse` of the
canonical `8-4-4-4-12` hex form; `uuid.MustParse` panics exactly when this
returns none. -/
def parseUUID (s : String) : Option Nat :=
  match splitDash s.data with
  | [a, b, c, d, e] =>
    if a.length = 8 ∧ b.length = 4 ∧ c.length = 4 ∧ d.length = 4 ∧
       e.length = 12 then
      hexToNat (a ++ b ++ c ++ d ++ e) 0
    else none
  | _ => none

/-- How one delivery leaves the consumer loop (`BidConsumer.Run`): acked,
nacked without requeue (poison), nacked with requeue, or a
`uuid.MustParse` panic that crashes the worker. -/
inductive LoopAction where
  | ack
  | nackNoRequeue
  | nackRequeue
  | panicked
deriving DecidableEq, Repr

/-- Observable outcome of handling one delivery: the broker action taken,
whether a store transaction was begun, and the store afterwards. -/
structure HandleResult where
  action : LoopAction
  txBegun : Bool
  store : StatsStore
deriving DecidableEq, Repr

/-- One iteration of `BidConsumer.Run`'s delivery loop (the `case d` branch,
lines 241-273 of the consumer source): unmarshal — on failure
`Nack(false, false)` and continue; map to `BidPlacedEvent` via
`uuid.MustParse(event.BidId)` / `uuid.MustParse(event.UserId)` — panics on
an invalid UUID string; then `ProcessBidPlaced` — `Ack` on success,
`Nack(false, true)` on error. -/
def handleDelivery (s : StatsStore) (body : Payload) (now : Nat)
    (commitOk : Bool) : HandleResult :=
  match decodePayload body with
  | none => { action := LoopAction.nackNoRequeue, txBegun := false, store := s }
  | some m =>
    match parseUUID m.bidId with
    | none => { action := LoopAction.panicked, txBegun := false, store := s }
    | some eventId =>
      match parseUUID m.userId with
      | none => { action := LoopAction.panicked, txBegun := false, store := s }
      | some userId =>
        let ev : BidPlacedEvent :=
          { eventId := eventId, userId := userId
            amount := m.amount, timestamp := m.timestamp }
        match processBidPlaced s ev now commitOk with
        | (Except.ok _, s') =>
          { action := LoopAction.ack, txBegun := true, store := s' }
        | (Except.error _, s') =>
          { action := LoopAction.nackRequeue, txBegun := true, store := s' }

/-! ### Helper lemmas -/

/-- Updating an item's highest bid commutes with looking the item up:
the looked-up row afterwards is the old row with the new amount. -/
theorem findItem_updateHighestBid (items : List Item) (itemId : Nat)
    (amount : Int) :
    findItem (updateHighestBid items itemId amount) itemId =
      (findItem items itemId).map
        (fun it => { it with currentHighestBid := amount }) := by
  induction items with
  | nil => rfl
  | cons hd tl ih =>
    by_cases h : hd.id = itemId
    · simp [findItem, updateHighestBid, List.find?_cons, h]
    · simpa [findItem, updateHighestBid, List.find?_cons, h] using ih

/-! ### Claim theorems -/

/-- C2: for every PlaceBid call on an existing item, validation runs in
order and short-circuits on the first failure — seller check first
(`SellerCannotBid`), then positivity (`InvalidBidAmount`), then the
strict comparison against the current highest bid (`BidTooLow`, equality
rejected), then the end-of-auction check (`AuctionEnded`); on each of
these errors the store is returned unchanged. -/
theorem C2_validation_order (store : BidStore) (cmd : PlaceBidCommand)
    (now newBidId newEventId : Nat) (commitOk : Bool) (item : Item)
    (hfind : findItem store.items cmd.itemId = some item) :
    (item.sellerId = cmd.userId →
      placeBid store cmd now newBidId newEventId commitOk =
        (Except.error BidError.sellerCannotBid, store)) ∧
    (item.sellerId ≠ cmd.userId → cmd.amount ≤ 0 →
      placeBid store cmd now newBidId newEventId commitOk =
        (Except.error BidError.invalidBidAmount, store)) ∧
    (item.sellerId ≠ cmd.userId → 0 < cmd.amount →
      cmd.amount ≤ item.currentHighestBid →
      placeBid store cmd now newBidId newEventId commitOk =
        (Except.error BidError.bidTooLow, store)) ∧
    (item.sellerId ≠ cmd.userId → 0 < cmd.amount →
      item.currentHighestBid < cmd.amount → item.endAt < now →
      placeBid store cmd now newBidId newEventId commitOk =
        (Except.error BidError.auctionEnded, store)) := by
  refine ⟨fun hs => ?_, fun hs ha => ?_, fun hs ha hle => ?_,
    fun hs ha hgt hend => ?_⟩
  · simp [placeBid, hfind, hs]
  · simp [placeBid, hfind, hs, validateBidAmount, ha]
  · simp [placeBid, hfind, hs, validateBidAmount, not_le.mpr ha, hle]
  · simp [placeBid, hfind, hs, validateBidAmount, not_le.mpr ha,
      not_le.mpr hgt, validateAuctionNotEnded, hend]

/-- Witness for C2 at scenario 3 of the spec: the seller bidding on their
own item is rejected with `SellerCannotBid` and the store is unchanged. -/
theorem C2_validation_order_witness :
    placeBid { items := [{ id := 1, sellerId := 9, startPrice := 10000,
                           currentHighestBid := 0, endAt := 100 }],
               bids := [], outbox := [] }
        { itemId := 1, userId := 9, amount := 20000 } 50 11 12 true =
      (Except.error BidError.sellerCannotBid,
       { items := [{ id := 1, sellerId := 9, startPrice := 10000,
                     currentHighestBid := 0, endAt := 100 }],
         bids := [], outbox := [] }) :=
  (C2_validation_order
      { items := [{ id := 1, sellerId := 9, startPrice := 10000,
                    currentHighestBid := 0, endAt := 100 }],
        bids := [], outbox := [] }
      { itemId := 1, userId := 9, amount := 20000 } 50 11 12 true
      { id := 1, sellerId := 9, startPrice := 10000,
        currentHighestBid := 0, endAt := 100 }
      (by decide)).1 (by decide)

/-- C1: every successful `PlaceBid` call appends exactly one row to `bids`
carrying the requested amount, sets the item's `current_highest_bid` to the
bid amount, and appends exactly one Pending `bid.placed` row to
`outbox_events` — all installed together by the single commit; every call
that returns an error (validation failure, missing item or commit failure)
leaves the store exactly as it was. -/
theorem C1_placeBid_transactional (store : BidStore) (cmd : PlaceBidCommand)
    (now newBidId newEventId : Nat) (commitOk : Bool) :
    (∀ bid s',
      placeBid store cmd now newBidId newEventId commitOk =
        (Except.ok bid, s') →
      bid.amount = cmd.amount ∧
      s'.bids = store.bids ++ [bid] ∧
      (∃ ev, s'.outbox = store.outbox ++ [ev] ∧
        ev.eventType = "bid.placed" ∧ ev.status = OutboxStatus.pending) ∧
      (findItem s'.items cmd.itemId).map Item.currentHighestBid =
        some cmd.amount) ∧
    (∀ err s',
      placeBid store cmd now newBidId newEventId commitOk =
        (Except.error err, s') →
      s' = store) := by
  constructor
  · intro bid s' h
    unfold placeBid at h
    split at h
    · simp at h
    · rename_i item hfind
      split at h
      · simp at h
      · split at h
        · simp at h
        · split at h
          · simp at h
          · split at h
            · simp only [Prod.mk.injEq, Except.ok.injEq] at h
              obtain ⟨hbid, hs⟩ := h
              subst hbid
              subst hs
              refine ⟨rfl, rfl, ⟨_, rfl, rfl, rfl⟩, ?_⟩
              simp [findItem_updateHighestBid, hfind]
            · simp at h
  · intro err s' h
    unfold placeBid at h
    split at h
    · injection h with h1 h2; exact h2.symm
    · rename_i item hfind
      split at h
      · injection h with h1 h2; exact h2.symm
      · split at h
        · injection h with h1 h2; exact h2.symm
        · split at h
          · injection h with h1 h2; exact h2.symm
          · split at h
            · simp at h
            · injection h with h1 h2; exact h2.symm

/-- Scenario 1 of the spec, used by several witnesses: a fresh item with
start price 10000, no bids, ending at instant 100, seller 9. -/
def storeW : BidStore :=
  { items := [{ id := 1, sellerId := 9, startPrice := 10000,
                currentHighestBid := 0, endAt := 100 }],
    bids := [], outbox := [] }

/-- Witness for C1: on scenario 1 the successful call appends the one bid
row, and the same call with a failing commit leaves the store untouched. -/
theorem C1_placeBid_transactional_witness :
    (placeBid storeW { itemId := 1, userId := 2, amount := 15000 }
        50 11 12 true).2.bids =
      storeW.bids ++ [{ id := 11, itemId := 1, userId := 2,
                        amount := 15000, createdAt := 50 }] ∧
    (placeBid storeW { itemId := 1, userId := 2, amount := 15000 }
        50 11 12 false).2 = storeW :=
  ⟨((C1_placeBid_transactional storeW
        { itemId := 1, userId := 2, amount := 15000 } 50 11 12 true).1
      { id := 11, itemId := 1, userId := 2, amount := 15000,
        createdAt := 50 }
      (placeBid storeW { itemId := 1, userId := 2, amount := 15000 }
        50 11 12 true).2 (by decide)).2.1,
   (C1_placeBid_transactional storeW
        { itemId := 1, userId := 2, amount := 15000 } 50 11 12 false).2
      BidError.transactionFailed
      (placeBid storeW { itemId := 1, userId := 2, amount := 15000 }
        50 11 12 false).2 (by decide)⟩

/-- C9: `PlaceBid` never compares the bid amount to the item's
`start_price`: with `current_highest_bid = 0`, any amount `≥ 1` passes
validation for a non-seller before the deadline — the item's `startPrice`
is left completely unconstrained here, so in particular amounts strictly
below it are accepted as the new highest bid. -/
theorem C9_start_price_never_compared (store : BidStore)
    (cmd : PlaceBidCommand) (now newBidId newEventId : Nat) (item : Item)
    (hfind : findItem store.items cmd.itemId = some item)
    (hseller : item.sellerId ≠ cmd.userId)
    (hcur : item.currentHighestBid = 0)
    (hamt : 1 ≤ cmd.amount)
    (hend : now ≤ item.endAt) :
    ∃ s', placeBid store cmd now newBidId newEventId true =
        (Except.ok { id := newBidId, itemId := cmd.itemId,
                     userId := cmd.userId, amount := cmd.amount,
                     createdAt := now }, s') ∧
      (findItem s'.items cmd.itemId).map Item.currentHighestBid =
        some cmd.amount := by
  have hpos : ¬ cmd.amount ≤ 0 := not_le.mpr (by omega)
  have hhigher : ¬ cmd.amount ≤ item.currentHighestBid := by
    rw [hcur]; exact hpos
  have hnotended : ¬ item.endAt < now := not_lt.mpr hend
  refine ⟨{ items := updateHighestBid store.items cmd.itemId cmd.amount
            bids := store.bids ++
              [{ id := newBidId, itemId := cmd.itemId, userId := cmd.userId
                 amount := cmd.amount, createdAt := now }]
            outbox := store.outbox ++
              [{ id := newEventId, eventType := "bid.placed"
                 payload := Payload.bidPlaced (mkBidPlacedMessage
                   { id := newBidId, itemId := cmd.itemId
                     userId := cmd.userId, amount := cmd.amount
                     createdAt := now })
                 status := OutboxStatus.pending, createdAt := now
                 processedAt := none }] }, ?_, ?_⟩
  · simp [placeBid, hfind, hseller, validateBidAmount, hpos, hhigher,
      validateAuctionNotEnded, hnotended]
  · simp [findItem_updateHighestBid, hfind]

/-- Witness for C9: an item with `start_price = 10000` and no bids yet
accepts a bid of 1 — far below the start price. -/
theorem C9_start_price_never_compared_witness :
    ∃ s', placeBid { items := [{ id := 1, sellerId := 9,
                                 startPrice := 10000,
                                 currentHighestBid := 0, endAt := 100 }],
                     bids := [], outbox := [] }
        { itemId := 1, userId := 2, amount := 1 } 50 11 12 true =
        (Except.ok { id := 11, itemId := 1, userId := 2, amount := 1,
                     createdAt := 50 }, s') ∧
      (findItem s'.items 1).map Item.currentHighestBid = some 1 :=
  C9_start_price_never_compared
    { items := [{ id := 1, sellerId := 9, startPrice := 10000,
                  currentHighestBid := 0, endAt := 100 }],
      bids := [], outbox := [] }
    { itemId := 1, userId := 2, amount := 1 } 50 11 12
    { id := 1, sellerId := 9, startPrice := 10000,
      currentHighestBid := 0, endAt := 100 }
    (by decide) (by decide) (by decide) (by decide) (by decide)

/-- A processed event short-circuits `ProcessBidPlaced`: the dedup gate
returns success without touching the store (part_040 lines 247-255). -/
theorem processBidPlaced_of_processed (s : StatsStore) (e : BidPlacedEvent)
    (now : Nat) (commitOk : Bool)
    (h : isEventProcessed s e.eventId = true) :
    processBidPlaced s e now commitOk = (Except.ok (), s) := by
  simp [processBidPlaced, h]

/-- After one committed `ProcessBidPlaced`, the event id is in
`processed_events`. -/
theorem isEventProcessed_applyOnce (s : StatsStore) (e : BidPlacedEvent)
    (now : Nat) :
    isEventProcessed (processBidPlaced s e now true).2 e.eventId = true := by
  by_cases h : e.eventId ∈ s.processed
  · simp [processBidPlaced, isEventProcessed, h]
  · simp [processBidPlaced, isEventProcessed, h]

/-- Iterating `ProcessBidPlaced` on its own result is a no-op. -/
theorem iterate_applyOnce (s : StatsStore) (e : BidPlacedEvent) (now : Nat) :
    ∀ k, (fun st => (processBidPlaced st e now true).2)^[k]
        ((processBidPlaced s e now true).2) =
      (processBidPlaced s e now true).2 := by
  intro k
  induction k with
  | zero => rfl
  | succ k ih =>
    have hfix : (processBidPlaced ((processBidPlaced s e now true).2)
        e now true).2 = (processBidPlaced s e now true).2 := by
      rw [processBidPlaced_of_processed _ _ _ _
        (isEventProcessed_applyOnce s e now)]
    rw [Function.iterate_succ_apply, hfix]
    exact ih

/-- C3: delivering the same `bid.placed` event N ≥ 1 times leaves the same
`UserStats` and `processed_events` state as delivering it once; every
delivery after the first finds the event id in `processed_events` and
returns success without changes (regardless of its own clock reading or
commit outcome); and the aggregate upsert and the `processed_events`
insert take effect together or not at all. -/
theorem C3_idempotent_consumer (s : StatsStore) (e : BidPlacedEvent)
    (now nowLater n : Nat) (hn : 1 ≤ n) :
    (fun st => (processBidPlaced st e now true).2)^[n] s =
      (processBidPlaced s e now true).2 ∧
    isEventProcessed (processBidPlaced s e now true).2 e.eventId = true ∧
    (∀ commitOk, processBidPlaced (processBidPlaced s e now true).2
        e nowLater commitOk =
      (Except.ok (), (processBidPlaced s e now true).2)) ∧
    (∀ commitOk, (processBidPlaced s e now commitOk).2 = s ∨
      (processBidPlaced s e now commitOk).2 =
        { stats := incrementUserStats s.stats e.userId e.amount
            e.timestamp now
          processed := s.processed ++ [e.eventId] }) := by
  refine ⟨?_, isEventProcessed_applyOnce s e now,
    fun commitOk => processBidPlaced_of_processed _ _ _ _
      (isEventProcessed_applyOnce s e now), fun commitOk => ?_⟩
  · obtain ⟨k, rfl⟩ : ∃ k, n = k + 1 := ⟨n - 1, by omega⟩
    rw [Function.iterate_succ_apply]
    exact iterate_applyOnce s e now k
  · by_cases h : isEventProcessed s e.eventId
    · left; simp [processBidPlaced, h]
    · simp only [Bool.not_eq_true] at h
      cases commitOk with
      | true => right; simp [processBidPlaced, h]
      | false => left; simp [processBidPlaced, h]

/-- Witness for C3: delivering event 1 twice to an empty store ends in the
same state as delivering it once. -/
theorem C3_idempotent_consumer_witness :
    (fun st => (processBidPlaced st ⟨1, 7, 5, 2⟩ 3 true).2)^[2]
        { stats := [], processed := [] } =
      (processBidPlaced { stats := [], processed := [] }
        ⟨1, 7, 5, 2⟩ 3 true).2 :=
  (C3_idempotent_consumer { stats := [], processed := [] }
    ⟨1, 7, 5, 2⟩ 3 4 2 (by decide)).1

/-- `SELECT ... FROM user_stats WHERE user_id = $1`
(`UserStatsRepository.GetUserStats`, part_041 lines 45-67): the row for a
user, or none. -/
def findStats (stats : List UserStats) (userId : Nat) : Option UserStats :=
  stats.find? (fun r => r.userId == userId)

/-- C4 counterexample: with an existing row whose `last_bid_at` is 5 and an
incoming event with timestamp 3, the SQL's `last_bid_at =
EXCLUDED.last_bid_at` leaves 3, while the claim's `max(existing, incoming)`
would leave 5 — the code overwrites, it does not take the maximum. -/
theorem C4_counterexample_lastBidAt :
    incrementUserStats [⟨7, 1, 10, 5, 0, 0⟩] 7 4 3 9 =
      [⟨7, 2, 14, 3, 0, 9⟩] ∧
    incrementUserStatsSpec [⟨7, 1, 10, 5, 0, 0⟩] 7 4 3 9 =
      [⟨7, 2, 14, 5, 0, 9⟩] ∧
    incrementUserStats [⟨7, 1, 10, 5, 0, 0⟩] 7 4 3 9 ≠
      incrementUserStatsSpec [⟨7, 1, 10, 5, 0, 0⟩] 7 4 3 9 ∧
    (findStats (incrementUserStats [⟨7, 1, 10, 5, 0, 0⟩] 7 4 3 9) 7).map
        UserStats.lastBidAt = some 3 ∧
    max 5 3 = 5 := by decide

/-- C4 amended: on first occurrence a row `{user_id, 1, amount,
last_bid_at = timestamp}` is inserted; on conflict `total_bids_placed`
grows by 1, `total_amount_bid` grows by the amount, and `last_bid_at` is
overwritten with the incoming timestamp (not `max(existing, incoming)`). -/
theorem C4_amended_upsert (stats : List UserStats) (userId : Nat)
    (amount : Int) (lastBidAt now : Nat) :
    (findStats stats userId = none →
      findStats (incrementUserStats stats userId amount lastBidAt now)
          userId =
        some { userId := userId, totalBidsPlaced := 1,
               totalAmountBid := amount, lastBidAt := lastBidAt,
               createdAt := now, updatedAt := now }) ∧
    (∀ r, findStats stats userId = some r →
      findStats (incrementUserStats stats userId amount lastBidAt now)
          userId =
        some { r with totalBidsPlaced := r.totalBidsPlaced + 1,
                      totalAmountBid := r.totalAmountBid + amount,
                      lastBidAt := lastBidAt,
                      updatedAt := now }) := by
  constructor
  · intro hnone
    have hnone' : List.find? (fun r => r.userId == userId) stats = none :=
      hnone
    have hall := List.find?_eq_none.mp hnone'
    have hany : stats.any (fun r => r.userId == userId) = false := by
      simp only [List.any_eq_false]
      intro r hr
      exact hall r hr
    rw [incrementUserStats, if_neg (by simp [hany])]
    rw [findStats, List.find?_append, hnone']
    simp
  · intro r hsome
    have hsome' : List.find? (fun r => r.userId == userId) stats = some r :=
      hsome
    have hmem : r ∈ stats := List.mem_of_find?_eq_some hsome'
    have hpr := List.find?_some hsome'
    have huid : r.userId = userId := by simpa using hpr
    have hany : stats.any (fun x => x.userId == userId) = true := by
      simp only [List.any_eq_true]
      exact ⟨r, hmem, hpr⟩
    rw [incrementUserStats, if_pos hany]
    have hpf : (fun x : UserStats => x.userId == userId) ∘
        (fun x : UserStats =>
          if x.userId = userId then
            { x with totalBidsPlaced := x.totalBidsPlaced + 1,
                     totalAmountBid := x.totalAmountBid + amount,
                     lastBidAt := lastBidAt, updatedAt := now }
          else x) = (fun x : UserStats => x.userId == userId) := by
      funext x
      by_cases hx : x.userId = userId <;> simp [hx]
    rw [findStats, List.find?_map, hpf, hsome']
    simp [huid]

/-- Witness for C4's amended claim: both the insert branch and the
conflict branch, on concrete rows. -/
theorem C4_amended_upsert_witness :
    findStats (incrementUserStats [] 7 10 5 2) 7 =
      some ⟨7, 1, 10, 5, 2, 2⟩ ∧
    findStats (incrementUserStats [⟨7, 1, 10, 5, 0, 0⟩] 7 4 3 9) 7 =
      some ⟨7, 2, 14, 3, 0, 9⟩ :=
  ⟨(C4_amended_upsert [] 7 10 5 2).1 (by decide),
   (C4_amended_upsert [⟨7, 1, 10, 5, 0, 0⟩] 7 4 3 9).2
     ⟨7, 1, 10, 5, 0, 0⟩ (by decide)⟩

/-- Every status update issued by the relay's per-event loop writes
Published — the loop knows no other status. -/
theorem relayLoop_writes_published (publishOk : OutboxEvent → Bool)
    (now : Nat) :
    ∀ (evs txOutbox : List OutboxEvent),
      ∀ w ∈ (relayLoop publishOk now evs txOutbox).2.1,
        w.2 = OutboxStatus.published := by
  intro evs
  induction evs with
  | nil => intro tx w hw; simp [relayLoop] at hw
  | cons e rest ih =>
    intro tx w hw
    by_cases hp : publishOk e = true
    · cases hupd : updateEventStatus tx e.id OutboxStatus.published now with
      | ok tx' =>
        simp only [relayLoop, hp, if_true, hupd] at hw
        simp only [List.mem_cons] at hw
        rcases hw with h | h
        · rw [h]
        · exact ih tx' w h
      | error err =>
        simp only [relayLoop, hp, if_true, hupd, List.mem_singleton] at hw
        rw [hw]
    · simp [relayLoop, hp] at hw

/-- When the per-event loop succeeds, its status-update trace is exactly
one Published write per claimed event, in claim order. -/
theorem relayLoop_ok_writes (publishOk : OutboxEvent → Bool) (now : Nat) :
    ∀ (evs txOutbox txFinal : List OutboxEvent),
      (relayLoop publishOk now evs txOutbox).1 = Except.ok txFinal →
      (relayLoop publishOk now evs txOutbox).2.1 =
        evs.map (fun e => (e.id, OutboxStatus.published)) := by
  intro evs
  induction evs with
  | nil => intro tx txF h; simp [relayLoop]
  | cons e rest ih =>
    intro tx txF h
    by_cases hp : publishOk e = true
    · cases hupd : updateEventStatus tx e.id OutboxStatus.published now with
      | ok tx' =>
        simp only [relayLoop, hp, if_true, hupd] at h ⊢
        rw [List.map_cons]
        exact congrArg _ (ih tx' txF h)
      | error err => simp [relayLoop, hp, hupd] at h
    · simp [relayLoop, hp] at h

/-- When the per-event loop succeeds, every claimed event was accepted by
the broker. -/
theorem relayLoop_ok_publish (publishOk : OutboxEvent → Bool) (now : Nat) :
    ∀ (evs txOutbox txFinal : List OutboxEvent),
      (relayLoop publishOk now evs txOutbox).1 = Except.ok txFinal →
      ∀ e ∈ evs, publishOk e = true := by
  intro evs
  induction evs with
  | nil => intro tx txF h e he; simp at he
  | cons e rest ih =>
    intro tx txF h x hx
    by_cases hp : publishOk e = true
    · cases hupd : updateEventStatus tx e.id OutboxStatus.published now with
      | ok tx' =>
        simp only [relayLoop, hp, if_true, hupd] at h
        rcases List.mem_cons.mp hx with rfl | hxr
        · exact hp
        · exact ih tx' txF h x hxr
      | error err => simp [relayLoop, hp, hupd] at h
    · simp [relayLoop, hp] at h

/-- A single Pending outbox row, used by the relay witnesses and the C5
counterexample. -/
def relayEventW : OutboxEvent :=
  { id := 1, eventType := "bid.placed", payload := Payload.malformed [],
    status := OutboxStatus.pending, createdAt := 0, processedAt := none }

/-- C5 counterexample: a relay transaction over one Pending row issues the
single status write Published — it never marks the row Processing, so the
claimed Pending → Processing → Published transition does not happen; the
row goes Pending → Published directly. -/
theorem C5_counterexample_noProcessing :
    getPendingEvents [relayEventW] [] 10 = [relayEventW] ∧
    (processBatch [relayEventW] [] 10 (fun _ => true) true 5).res =
      Except.ok () ∧
    (processBatch [relayEventW] [] 10 (fun _ => true) true 5).writes =
      [(1, OutboxStatus.published)] ∧
    (1, OutboxStatus.processing) ∉
      (processBatch [relayEventW] [] 10 (fun _ => true) true 5).writes := by
  decide

/-- C5 amended: within one relay transaction every status write is
Published (the Processing status is never written), and on a successful
batch each claimed row receives exactly one Published write, in claim
order — so a committed row moves Pending → Published exactly once and
never revisits an earlier status. -/
theorem C5_amended_status_transitions (outbox : List OutboxEvent)
    (locked : List Nat) (batchSize : Nat) (publishOk : OutboxEvent → Bool)
    (commitOk : Bool) (now : Nat) :
    (∀ w ∈ (processBatch outbox locked batchSize publishOk commitOk
        now).writes, w.2 = OutboxStatus.published) ∧
    ((processBatch outbox locked batchSize publishOk commitOk now).res =
        Except.ok () →
      (processBatch outbox locked batchSize publishOk commitOk
          now).writes =
        (getPendingEvents outbox locked batchSize).map
          (fun e => (e.id, OutboxStatus.published))) := by
  by_cases hemp : (getPendingEvents outbox locked batchSize).isEmpty = true
  · have hnil : getPendingEvents outbox locked batchSize = [] :=
      List.isEmpty_iff.mp hemp
    simp [processBatch, hemp, hnil]
  · rcases hl : relayLoop publishOk now
        (getPendingEvents outbox locked batchSize) outbox with
      ⟨res, writes, pub⟩
    cases res with
    | ok txF =>
      cases commitOk with
      | true =>
        have hw := relayLoop_ok_writes publishOk now
          (getPendingEvents outbox locked batchSize) outbox txF
          (by rw [hl])
        rw [hl] at hw
        constructor
        · intro w hmem
          have := relayLoop_writes_published publishOk now
            (getPendingEvents outbox locked batchSize) outbox w
          rw [hl] at this
          apply this
          simpa [processBatch, hemp, hl] using hmem
        · intro _
          simpa [processBatch, hemp, hl] using hw
      | false =>
        constructor
        · intro w hmem
          have := relayLoop_writes_published publishOk now
            (getPendingEvents outbox locked batchSize) outbox w
          rw [hl] at this
          apply this
          simpa [processBatch, hemp, hl] using hmem
        · intro hok
          simp [processBatch, hemp, hl] at hok
    | error err =>
      constructor
      · intro w hmem
        have := relayLoop_writes_published publishOk now
          (getPendingEvents outbox locked batchSize) outbox w
        rw [hl] at this
        apply this
        simpa [processBatch, hemp, hl] using hmem
      · intro hok
        simp [processBatch, hemp, hl] at hok

/-- Witness for C5's amended claim: the successful one-row batch writes
exactly one Published status per claimed row. -/
theorem C5_amended_status_transitions_witness :
    (processBatch [relayEventW] [] 10 (fun _ => true) true 5).writes =
      (getPendingEvents [relayEventW] [] 10).map
        (fun e => (e.id, OutboxStatus.published)) :=
  (C5_amended_status_transitions [relayEventW] [] 10 (fun _ => true)
    true 5).2 (by decide)

/-- C6: if the broker rejects any event of the claimed batch, the relay
transaction returns an error and rolls back — the stored outbox is
unchanged, so every claimed row still has its old (Pending) status, and
the next tick's claim returns exactly the same rows. -/
theorem C6_publish_failure_rolls_back (outbox : List OutboxEvent)
    (locked : List Nat) (batchSize : Nat) (publishOk : OutboxEvent → Bool)
    (commitOk : Bool) (now : Nat)
    (hfail : ∃ e ∈ getPendingEvents outbox locked batchSize,
      publishOk e = false) :
    (∃ err, (processBatch outbox locked batchSize publishOk commitOk
        now).res = Except.error err) ∧
    (processBatch outbox locked batchSize publishOk commitOk now).outbox =
      outbox ∧
    getPendingEvents
        (processBatch outbox locked batchSize publishOk commitOk
          now).outbox locked batchSize =
      getPendingEvents outbox locked batchSize := by
  obtain ⟨e, hmem, hpf⟩ := hfail
  have hemp : (getPendingEvents outbox locked batchSize).isEmpty =
      false := by
    cases hg : getPendingEvents outbox locked batchSize with
    | nil => rw [hg] at hmem; simp at hmem
    | cons a l => simp [hg]
  rcases hl : relayLoop publishOk now
      (getPendingEvents outbox locked batchSize) outbox with
    ⟨res, writes, pub⟩
  cases res with
  | ok txF =>
    have := relayLoop_ok_publish publishOk now
      (getPendingEvents outbox locked batchSize) outbox txF
      (by rw [hl]) e hmem
    rw [hpf] at this
    exact absurd this (by simp)
  | error err =>
    refine ⟨⟨err, ?_⟩, ?_, ?_⟩ <;> simp [processBatch, hemp, hl]

/-- Witness for C6: a broker that rejects everything leaves the one-row
outbox untouched and the same row claimable. -/
theorem C6_publish_failure_rolls_back_witness :
    (∃ err, (processBatch [relayEventW] [] 10 (fun _ => false) true
        5).res = Except.error err) ∧
    (processBatch [relayEventW] [] 10 (fun _ => false) true 5).outbox =
      [relayEventW] ∧
    getPendingEvents
        (processBatch [relayEventW] [] 10 (fun _ => false) true
          5).outbox [] 10 =
      getPendingEvents [relayEventW] [] 10 :=
  C6_publish_failure_rolls_back [relayEventW] [] 10 (fun _ => false)
    true 5 (by decide)

/-- C7: a claim returns at most `limit` events, each returned event is
Pending and not currently locked by another transaction (locked rows are
skipped, not waited on), and the returned list is ordered by `created_at`
ascending. -/
theorem C7_getPendingEvents_contract (outbox : List OutboxEvent)
    (locked : List Nat) (limit : Nat) :
    (getPendingEvents outbox locked limit).length ≤ limit ∧
    (∀ e ∈ getPendingEvents outbox locked limit,
      e.status = OutboxStatus.pending ∧ e.id ∉ locked) ∧
    List.Pairwise (fun a b : OutboxEvent => a.createdAt ≤ b.createdAt)
      (getPendingEvents outbox locked limit) := by
  refine ⟨?_, ?_, ?_⟩
  · rw [getPendingEvents, List.length_take]
    exact min_le_left _ _
  · intro e he
    have h1 := (List.take_sublist limit _).subset he
    have h2 := (List.perm_insertionSort createdAtLe _).mem_iff.mp h1
    have h3 := List.mem_filter.mp h2
    simpa using h3.2
  · exact List.Pairwise.sublist (List.take_sublist _ _)
      (List.sorted_insertionSort createdAtLe _)

/-- Witness for C7 on a one-row outbox: at most ten rows returned, and the
returned row is Pending and unlocked. -/
theorem C7_getPendingEvents_contract_witness :
    (getPendingEvents [relayEventW] [] 10).length ≤ 10 ∧
    relayEventW.status = OutboxStatus.pending ∧
    relayEventW.id ∉ ([] : List Nat) :=
  ⟨(C7_getPendingEvents_contract [relayEventW] [] 10).1,
   (C7_getPendingEvents_contract [relayEventW] [] 10).2.1 relayEventW
     (by decide)⟩

/-- C8: a delivery whose payload fails to unmarshal as `BidPlaced` is
nacked without requeue (poison message); no transaction is begun and the
store is left unchanged, and the loop moves on (no panic, no requeue). -/
theorem C8_decode_failure_poison (s : StatsStore) (body : Payload)
    (now : Nat) (commitOk : Bool) (hdec : decodePayload body = none) :
    handleDelivery s body now commitOk =
      { action := LoopAction.nackNoRequeue, txBegun := false,
        store := s } := by
  simp [handleDelivery, hdec]

/-- Witness for C8: a malformed byte string is nacked without requeue and
the empty store is untouched. -/
theorem C8_decode_failure_poison_witness :
    handleDelivery { stats := [], processed := [] }
        (Payload.malformed [1, 2, 3]) 0 true =
      { action := LoopAction.nackNoRequeue, txBegun := false,
        store := { stats := [], processed := [] } } :=
  C8_decode_failure_poison { stats := [], processed := [] }
    (Payload.malformed [1, 2, 3]) 0 true (by decide)

/-- C10: a delivery that unmarshals fine but carries a `bid_id` that is
not a valid UUID string makes the consumer's `uuid.MustParse` panic — the
worker crashes instead of nacking the message, and no transaction is
begun. -/
theorem C10_invalid_uuid_panics :
    decodePayload (Payload.bidPlaced
      ⟨"not-a-uuid", uuidString 1, uuidString 2, 5, 0⟩) =
      some ⟨"not-a-uuid", uuidString 1, uuidString 2, 5, 0⟩ ∧
    parseUUID "not-a-uuid" = none ∧
    handleDelivery { stats := [], processed := [] }
        (Payload.bidPlaced
          ⟨"not-a-uuid", uuidString 1, uuidString 2, 5, 0⟩) 0 true =
      { action := LoopAction.panicked, txBegun := false,
        store := { stats := [], processed := [] } } := by
  decide

end Gavel
